import Mathlib

/-!
Shallow embedding of the turn-resolution and inventory engine of the
Game.RPGVerse client (source of truth: `src/components/NarrativeView.tsx`,
data shapes from the richest `types.ts` variant).  React `useState` fields
become fields of `GameState`; queued functional state updates are applied
sequentially, which is observationally equivalent for this single-threaded
component.  Nondeterministic identifiers that are never read by the logic
(`crypto.randomUUID()` log ids, `Date.now()` timestamps) are omitted.
`Math.random()` draws are passed in as explicit arguments.
-/

namespace RPGVerse

inductive EquipmentSlot
  | back
  | chest
  | hands
deriving DecidableEq, Repr

inductive ItemType
  | consumable
  | equipment
  | misc
deriving DecidableEq, Repr

/-- Item record from types.ts; `type`, `slot`, `capacityBonus`, `price`
and `id` are optional fields in the source. -/
structure Item where
  id : Option String
  name : String
  description : String
  effect : String
  itemType : Option ItemType
  slot : Option EquipmentSlot
  capacityBonus : Option Int
  price : Option Int
deriving DecidableEq, Repr

structure StatusEffect where
  name : String
  description : String
  duration : Int
deriving DecidableEq, Repr

structure Skill where
  name : String
  description : String
  active : Bool
  level : Int
deriving DecidableEq, Repr

structure Attributes where
  FOR : Int
  DES : Int
  CON : Int
  INT : Int
  SAB : Int
  CAR : Int
  AGI : Int
  SOR : Int
deriving DecidableEq, Repr

structure DerivedStats where
  hp : Int
  stamina : Int
  mana : Int
deriving DecidableEq, Repr

/-- Equipment map `Partial<Record<EquipmentSlot, Item>>`: at most one
item per slot. -/
structure Equipment where
  back : Option Item
  chest : Option Item
  hands : Option Item
deriving DecidableEq, Repr

def Equipment.get (e : Equipment) : EquipmentSlot → Option Item
  | .back => e.back
  | .chest => e.chest
  | .hands => e.hands

def Equipment.set (e : Equipment) : EquipmentSlot → Option Item → Equipment
  | .back, v => { e with back := v }
  | .chest, v => { e with chest := v }
  | .hands, v => { e with hands := v }

structure Character where
  id : String
  name : String
  concept : String
  motivation : String
  strength : String
  flaw : String
  connection : Option String
  skills : List Skill
  attributes : Attributes
  derived : DerivedStats
  items : List Item
  equipment : Equipment
  status : Option (List StatusEffect)
  wealth : Int
deriving DecidableEq, Repr

inductive Difficulty
  | Minion
  | Elite
  | Boss
deriving DecidableEq, Repr

structure Enemy where
  id : String
  name : String
  description : String
  currentHp : Int
  maxHp : Int
  currentMana : Int
  maxMana : Int
  currentStamina : Int
  maxStamina : Int
  difficulty : Difficulty
  status : Option (List StatusEffect)
  skills : Option (List Skill)
deriving DecidableEq, Repr

structure Ally where
  id : String
  name : String
  description : String
  currentHp : Int
  maxHp : Int
  currentMana : Int
  maxMana : Int
  currentStamina : Int
  maxStamina : Int
  status : Option (List StatusEffect)
deriving DecidableEq, Repr

inductive NpcRole
  | Merchant
  | Civilian
  | Animal
  | Other
deriving DecidableEq, Repr

structure NeutralNPC where
  id : String
  name : String
  description : String
  role : NpcRole
  currentHp : Int
  maxHp : Int
  status : Option (List StatusEffect)
  isMerchant : Bool
  shopItems : Option (List Item)
deriving DecidableEq, Repr

structure LegendEntry where
  symbol : String
  description : String
deriving DecidableEq, Repr

structure MapData where
  locationName : String
  grid : List (List String)
  legend : List LegendEntry
deriving DecidableEq, Repr

inductive TimePhase
  | DAWN
  | DAY
  | DUSK
  | NIGHT
deriving DecidableEq, Repr

structure TimeData where
  dayCount : Int
  phase : TimePhase
  description : String
deriving DecidableEq, Repr

/-- Narrative history entry; `role` is one of "gm" / "player" / "system". -/
structure NarrativeTurn where
  role : String
  content : String
deriving DecidableEq, Repr

/-- Mechanic log entry (`MechanicLog` in NarrativeView.tsx); `logType` is
one of "player-roll" / "enemy-roll" / "system-info" / "damage" / "gain". -/
structure MechanicLog where
  source : String
  content : String
  logType : String
  value : Option Int
deriving DecidableEq, Repr

inductive ResourceKind
  | hp
  | mana
  | stamina
deriving DecidableEq, Repr

def DerivedStats.getRes (d : DerivedStats) : ResourceKind → Int
  | .hp => d.hp
  | .mana => d.mana
  | .stamina => d.stamina

def DerivedStats.setRes (d : DerivedStats) : ResourceKind → Int → DerivedStats
  | .hp, v => { d with hp := v }
  | .mana, v => { d with mana := v }
  | .stamina, v => { d with stamina := v }

def ResourceKind.upper : ResourceKind → String
  | .hp => "HP"
  | .mana => "MANA"
  | .stamina => "STAMINA"

structure ResourceChange where
  characterName : String
  resource : ResourceKind
  value : Int
  reason : String
deriving DecidableEq, Repr

inductive InvAction
  | ADD
  | REMOVE
deriving DecidableEq, Repr

structure InventoryUpdate where
  characterName : String
  item : Item
  action : InvAction
  cost : Option Int
deriving DecidableEq, Repr

structure CharacterStatusUpdate where
  characterName : String
  status : List StatusEffect
deriving DecidableEq, Repr

inductive GameResultTag
  | VICTORY
  | DEFEAT
deriving DecidableEq, Repr

/-- Oracle `TurnResponse`: fields the engine guards with a JS truthiness test are
`Option`s (absent field = `none`).  `attributeChanges` is declared in
types.ts but never read by NarrativeView, so it is omitted here. -/
structure TurnResponse where
  storyText : String
  systemLogs : Option (List String)
  isGameOver : Bool
  gameResult : Option GameResultTag
  resourceChanges : Option (List ResourceChange)
  inventoryUpdates : Option (List InventoryUpdate)
  characterStatusUpdates : Option (List CharacterStatusUpdate)
  activeEnemies : Option (List Enemy)
  activeAllies : Option (List Ally)
  activeNeutrals : Option (List NeutralNPC)
  nearbyItems : Option (List Item)
  mapData : Option MapData
  timeData : Option TimeData
deriving DecidableEq, Repr

/-- The component state of `NarrativeView` that the engine logic reads and
writes (`useState` slots).  Transient UI-selection state (`activeTab`,
`givingItem`, `addingStatusTo`, `actions`, `selectedDice`, `gmSuggestion`,
`isProcessing`) is not part of the game state proper; the pieces of it the
engine consumes are passed to `submitTurn` as arguments. -/
structure GameState where
  activeCharacters : List Character
  history : List NarrativeTurn
  enemies : List Enemy
  activeAllies : List Ally
  activeNeutrals : List NeutralNPC
  nearbyItems : List Item
  mechanicLogs : List MechanicLog
  mapData : Option MapData
  karmaMap : List (String × Int)
  timeData : TimeData
  tradeTarget : Option NeutralNPC
  gameResult : Option String
deriving DecidableEq, Repr

/-- Lookup `karmaMap[entityId] || 0`. -/
def lookupKarma (m : List (String × Int)) (k : String) : Int :=
  match m.find? (fun p => p.1 == k) with
  | some p => p.2
  | none => 0

/-- Object-key assignment `{ ...prev, [entityId]: v }`. -/
def setKarma (m : List (String × Int)) (k : String) (v : Int) : List (String × Int) :=
  match m with
  | [] => [(k, v)]
  | p :: rest => if p.1 == k then (k, v) :: rest else p :: setKarma rest k v

/-- Appends one entry to `mechanicLogs` (`addLog` in NarrativeView.tsx). -/
def GameState.addLog (st : GameState) (source content ltype : String) (value : Option Int) : GameState :=
  { st with mechanicLogs := st.mechanicLogs ++ [⟨source, content, ltype, value⟩] }

/-! ## Dice engine (`rollDie` in NarrativeView.tsx)

The two `Math.floor(Math.random() * sides) + 1` draws are passed in as
`r1` and `r2`; the per-entity streak is read from the karma map by the
caller.  The source computes the roll result and queues the streak update
in one function; here the result and the streak transition are the two
components `rollDie` and `streakNext`. -/

def rollDie (karmicDiceEnabled : Bool) (streak : Int) (r1 r2 : Nat) : Nat :=
  if karmicDiceEnabled ∧ streak ≤ -2 then Nat.max r1 r2
  else if karmicDiceEnabled ∧ streak ≥ 2 then Nat.min r1 r2
  else r1

/-- Success threshold `Math.ceil(sides / 2)`. -/
def rollThreshold (sides : Nat) : Nat := (sides + 1) / 2

/-- The streak transition applied by `setKarmaMap` inside `rollDie`:
`isSuccess ? (s >= 0 ? min(s+1,5) : 1) : (s <= 0 ? max(s-1,-5) : -1)`. -/
def streakNext (streak : Int) (isSuccess : Bool) : Int :=
  if isSuccess then (if streak ≥ 0 then min (streak + 1) 5 else 1)
  else (if streak ≤ 0 then max (streak - 1) (-5) else -1)

/-- A whole sequence of rolls for one entity: each element carries the die
size and the two uniform draws; the streak starts at 0 and is threaded
through `streakNext`, with success defined as `result > ceil(sides/2)`. -/
def rollSession (karmicDiceEnabled : Bool) (rolls : List (Nat × Nat × Nat)) : Int :=
  rolls.foldl
    (fun streak r =>
      streakNext streak (rollDie karmicDiceEnabled streak r.2.1 r.2.2 > rollThreshold r.1))
    0

/-! ## Inventory & equipment handlers -/

/-- Bag limit `getInventoryLimit`: base 7 plus the equipped back item's
`capacityBonus || 0`. -/
def getInventoryLimit (c : Character) : Int :=
  7 + (match c.equipment.back with
       | some it => match it.capacityBonus with
                    | some b => b
                    | none => 0
       | none => 0)

/-- Template-literal rendering of an `EquipmentSlot`. -/
def slotName : EquipmentSlot → String
  | .back => "back"
  | .chest => "chest"
  | .hands => "hands"

/-- The per-character closure of `handleTakeItem`: blocks duplicates (with
a log) and full bags (silently), otherwise appends the item. -/
def takeCharUpdate (charId : String) (item : Item) (c : Character) :
    Character × List MechanicLog :=
  if c.id == charId then
    if c.items.any (fun i => i.name == item.name) then
      (c, [⟨"Inventário", item.name ++ " já está no inventário.", "system-info", none⟩])
    else if (c.items.length : Int) ≥ getInventoryLimit c then (c, [])
    else ({ c with items := c.items ++ [item] }, [])
  else (c, [])

/-- Handler `handleTakeItem`: blocked wholesale in combat; the per-character map
blocks duplicates and full bags, but the ground removal and the pickup
log run unconditionally afterwards. -/
def handleTakeItem (st : GameState) (charId : String) (item : Item) (itemIndex : Nat) : GameState :=
  if st.enemies.length > 0 then st
  else
    let rs := st.activeCharacters.map (takeCharUpdate charId item)
    let st1 : GameState :=
      { st with activeCharacters := rs.map Prod.fst,
                mechanicLogs := st.mechanicLogs ++ (rs.map Prod.snd).flatten }
    { st1 with nearbyItems := st1.nearbyItems.eraseIdx itemIndex,
               mechanicLogs := st1.mechanicLogs ++
                 [⟨"Inventário", "Pegou " ++ item.name ++ " do chão.", "gain", none⟩] }

/-- Handler `handleDropItem`: blocked wholesale in combat; otherwise removes the
bag slot and appends the item to the ground pool. -/
def handleDropItem (st : GameState) (charId : String) (item : Item) (itemIndex : Nat) : GameState :=
  if st.enemies.length > 0 then st
  else
    let st1 : GameState :=
      { st with activeCharacters := st.activeCharacters.map (fun c =>
          if c.id == charId then { c with items := c.items.eraseIdx itemIndex } else c) }
    { st1 with nearbyItems := st1.nearbyItems ++ [item],
               mechanicLogs := st1.mechanicLogs ++
                 [⟨"Inventário", "Jogou " ++ item.name ++ " no chão.", "system-info", none⟩] }

/-- The per-character closure of `handleGiveItem`'s transfer step: the
giver loses the bag slot, the receiver appends the item. -/
def giveCharUpdate (sourceCharId targetCharId : String) (itemIndex : Nat)
    (itemToGive : Item) (c : Character) : Character :=
  if c.id == sourceCharId then { c with items := c.items.eraseIdx itemIndex }
  else if c.id == targetCharId then { c with items := c.items ++ [itemToGive] }
  else c

/-- Handler `handleGiveItem`: no combat check in the source; validates existence,
recipient capacity and recipient duplicates, then transfers. -/
def handleGiveItem (st : GameState) (sourceCharId targetCharId : String) (itemIndex : Nat) : GameState :=
  match st.activeCharacters.find? (fun c => c.id == sourceCharId) with
  | none => st
  | some sourceChar =>
    match st.activeCharacters.find? (fun c => c.id == targetCharId) with
    | none => st
    | some targetChar =>
      match sourceChar.items.get? itemIndex with
      | none => st
      | some itemToGive =>
        if (targetChar.items.length : Int) ≥ getInventoryLimit targetChar then
          st.addLog "Troca" (targetChar.name ++ " não tem espaço na mochila.") "system-info" none
        else if targetChar.items.any (fun i => i.name == itemToGive.name) then
          st.addLog "Troca" (targetChar.name ++ " já possui esse item.") "system-info" none
        else
          let st1 : GameState :=
            { st with activeCharacters :=
                st.activeCharacters.map (giveCharUpdate sourceCharId targetCharId itemIndex itemToGive) }
          st1.addLog "Troca"
            (sourceChar.name ++ " deu " ++ itemToGive.name ++ " para " ++ targetChar.name ++ ".")
            "system-info" none

/-- The per-character closure of `handleEquipItem`: blocked (with a log)
when the slot is occupied, otherwise moves the item from the bag into the
equipment map. -/
def equipCharUpdate (charId : String) (slot : EquipmentSlot) (item : Item) (itemIndex : Nat)
    (c : Character) : Character × List MechanicLog :=
  if c.id == charId then
    match c.equipment.get slot with
    | some _ =>
      (c, [⟨"Equipamento", "Slot " ++ slotName slot ++ " ocupado. Desequipe primeiro.",
            "system-info", none⟩])
    | none =>
      ({ c with equipment := c.equipment.set slot (some item),
                items := c.items.eraseIdx itemIndex }, [])
  else (c, [])

/-- Handler `handleEquipItem`: requires `item.slot`; the outer "Equipou" log runs
unconditionally. -/
def handleEquipItem (st : GameState) (charId : String) (item : Item) (itemIndex : Nat) : GameState :=
  match item.slot with
  | none => st
  | some slot =>
    let rs := st.activeCharacters.map (equipCharUpdate charId slot item itemIndex)
    let st1 : GameState :=
      { st with activeCharacters := rs.map Prod.fst,
                mechanicLogs := st.mechanicLogs ++ (rs.map Prod.snd).flatten }
    st1.addLog "Equipamento" ("Equipou " ++ item.name ++ ".") "gain" none

/-- The per-character closure of `handleUnequipItem`: blocked (with a
log) when the bag is at the current capacity — a check made while the
slot, including a capacity-granting back item, is still equipped. -/
def unequipCharUpdate (charId : String) (slot : EquipmentSlot) (c : Character) :
    Character × List MechanicLog :=
  if c.id == charId then
    match c.equipment.get slot with
    | none => (c, [])
    | some item =>
      if (c.items.length : Int) ≥ getInventoryLimit c then
        (c, [⟨"Equipamento", "Sem espaço na mochila para desequipar.", "system-info", none⟩])
      else
        ({ c with equipment := c.equipment.set slot none, items := c.items ++ [item] }, [])
  else (c, [])

/-- Handler `handleUnequipItem`: the outer "Desequipou" log runs unconditionally. -/
def handleUnequipItem (st : GameState) (charId : String) (slot : EquipmentSlot) : GameState :=
  let rs := st.activeCharacters.map (unequipCharUpdate charId slot)
  let st1 : GameState :=
    { st with activeCharacters := rs.map Prod.fst,
              mechanicLogs := st.mechanicLogs ++ (rs.map Prod.snd).flatten }
  st1.addLog "Equipamento" ("Desequipou item das " ++ slotName slot ++ ".") "system-info" none

/-- The per-character closure of `handleBuyItem` (price `p` already known
non-zero): blocked with a log on insufficient wealth or full bag;
otherwise deducts the price and appends the item — with no duplicate-name
check. -/
def buyCharUpdate (charId : String) (item : Item) (p : Int) (c : Character) :
    Character × List MechanicLog :=
  if c.id == charId then
    if c.wealth < p then
      (c, [⟨"Comércio", "Dinheiro insuficiente para comprar " ++ item.name ++ ".",
            "system-info", none⟩])
    else if (c.items.length : Int) ≥ getInventoryLimit c then
      (c, [⟨"Comércio", "Sem espaço na mochila.", "system-info", none⟩])
    else
      ({ c with wealth := c.wealth - p, items := c.items ++ [item] },
       [⟨"Comércio", c.name ++ " comprou " ++ item.name ++ " por " ++ toString p ++ ".",
         "gain", none⟩])
  else (c, [])

/-- Handler `handleBuyItem`: the guard `if (!item.price) return` bails
out on an undefined or zero price. -/
def handleBuyItem (st : GameState) (charId : String) (item : Item) (npcId : String) : GameState :=
  match item.price with
  | none => st
  | some p =>
    if p = 0 then st
    else
      let rs := st.activeCharacters.map (buyCharUpdate charId item p)
      { st with activeCharacters := rs.map Prod.fst,
                mechanicLogs := st.mechanicLogs ++ (rs.map Prod.snd).flatten }

/-- Sell price `Math.floor((item.price || 10) / 2)` — price 0 or absent
falls back to 10; `Int.fdiv` is floor division like `Math.floor`. -/
def sellPriceOf (item : Item) : Int :=
  Int.fdiv (match item.price with
            | some p => if p = 0 then 10 else p
            | none => 10) 2

/-- The per-character closure of `handleSellItem`: credits the sell price
and removes the bag slot. -/
def sellCharUpdate (charId : String) (sellPrice : Int) (itemIndex : Nat) (c : Character) :
    Character :=
  if c.id == charId then
    { c with wealth := c.wealth + sellPrice, items := c.items.eraseIdx itemIndex }
  else c

/-- Handler `handleSellItem`: requires an open trade target; credits the seller,
removes the bag slot, and appends the item to the merchant's `shopItems`
(both in `activeNeutrals` and in the `tradeTarget` copy). -/
def handleSellItem (st : GameState) (charId : String) (item : Item) (itemIndex : Nat) : GameState :=
  match st.tradeTarget with
  | none => st
  | some tt =>
    let sellPrice := sellPriceOf item
    let st1 : GameState :=
      { st with activeCharacters := st.activeCharacters.map (sellCharUpdate charId sellPrice itemIndex) }
    let st2 : GameState :=
      { st1 with activeNeutrals := st1.activeNeutrals.map (fun n =>
          if n.id == tt.id then
            { n with shopItems := some ((match n.shopItems with
                                         | some l => l
                                         | none => []) ++ [item]) }
          else n) }
    let st3 : GameState :=
      { st2 with tradeTarget := some { tt with shopItems := some ((match tt.shopItems with
                                                                   | some l => l
                                                                   | none => []) ++ [item]) } }
    let sellerName := match st.activeCharacters.find? (fun c => c.id == charId) with
                      | some c => c.name
                      | none => "undefined"
    st3.addLog "Comércio"
      (sellerName ++ " vendeu " ++ item.name ++ " por " ++ toString sellPrice ++ ".")
      "gain" none

/-! ## Turn resolution (`submitTurn` in NarrativeView.tsx)

The Oracle call `processTurn` is the single external suspension point; its
outcome is passed in as `Option TurnResponse` (`none` = the call threw a
network/parse error after the service's own retries were exhausted). -/

/-- A findIndex-then-update helper: rewrites the first element satisfying `p`
with `f` and also returns that element (pre-update), or `none` when
`findIndex` returns `-1`. -/
def updateFirstBy {α : Type} (p : α → Bool) (f : α → α) : List α → List α × Option α
  | [] => ([], none)
  | x :: xs =>
    if p x then (f x :: xs, some x)
    else
      let r := updateFirstBy p f xs
      (x :: r.1, r.2)

/-- The log entry emitted for a resource change — identical whether or not
a character matched: `name: RES +v` / `name: RES v`, typed damage/gain. -/
def resChangeLog (rc : ResourceChange) : MechanicLog :=
  ⟨"Sistema",
   rc.characterName ++ ": " ++ rc.resource.upper ++ " " ++
     (if rc.value > 0 then "+" else "") ++ toString rc.value,
   if rc.value < 0 then "damage" else "gain", none⟩

/-- One `resourceChanges` element: `findIndex` by character name; on a hit
add `value` to the named resource, clamped below at 0 unless permadeath is
enabled; enemies and allies are never searched. -/
def applyResourceChange (permadeathEnabled : Bool)
    (acc : List Character × List MechanicLog) (rc : ResourceChange) :
    List Character × List MechanicLog :=
  let r := updateFirstBy (fun c => c.name == rc.characterName)
    (fun c =>
      let newValue := c.derived.getRes rc.resource + rc.value
      let newValue := if permadeathEnabled then newValue else max 0 newValue
      { c with derived := c.derived.setRes rc.resource newValue }) acc.1
  (r.1, acc.2 ++ [resChangeLog rc])

/-- The per-character effect of an Oracle `REMOVE` inventory update:
filter all same-named items out of the bag and, when a non-zero `cost` is
present (`if (update.cost)`), deduct it from wealth clamped at 0. -/
def removeCharUpdate (u : InventoryUpdate) (c : Character) : Character :=
  let c1 := { c with items := c.items.filter (fun i => ¬(i.name == u.item.name)) }
  match u.cost with
  | some cost => if cost = 0 then c1 else { c1 with wealth := max 0 (c1.wealth - cost) }
  | none => c1

/-- One `inventoryUpdates` element (skipped entirely when no character
name matches).  `ADD` pushes the item into the ground pool, deduplicated
by name; `REMOVE` applies `removeCharUpdate` to the first name match. -/
def applyInventoryUpdate (acc : List Character × List Item × List MechanicLog)
    (u : InventoryUpdate) : List Character × List Item × List MechanicLog :=
  match u.action with
  | .ADD =>
    if acc.1.any (fun c => c.name == u.characterName) then
      if acc.2.1.any (fun i => i.name == u.item.name) then acc
      else (acc.1, acc.2.1 ++ [u.item],
            acc.2.2 ++ [⟨"Loot", u.item.name ++ " caiu no chão/encontrado.", "system-info", none⟩])
    else acc
  | .REMOVE =>
    let r := updateFirstBy (fun c => c.name == u.characterName) (removeCharUpdate u) acc.1
    match r.2 with
    | none => acc
    | some c =>
      let costLogs : List MechanicLog :=
        match u.cost with
        | some cost =>
          if cost = 0 then []
          else [⟨"Comércio", "Gastou " ++ toString cost ++ ".", "system-info", none⟩]
        | none => []
      (r.1, acc.2.1,
       acc.2.2 ++ costLogs ++ [⟨"Perda", c.name ++ " perdeu " ++ u.item.name, "damage", none⟩])

/-- The `response.nearbyItems` merge: items whose name is already in the
pool are skipped; a log is emitted only when something was added. -/
def mergeNearbyItems (pool : List Item) (logs : List MechanicLog)
    (o : Option (List Item)) : List Item × List MechanicLog :=
  match o with
  | none => (pool, logs)
  | some ni =>
    if ni.length > 0 then
      let newItems := ni.filter (fun n => ¬ pool.any (fun e => e.name == n.name))
      if newItems.length > 0 then
        (pool ++ newItems,
         logs ++ [⟨"Ambiente", toString newItems.length ++ " novos itens no local.",
                   "system-info", none⟩])
      else (pool, logs)
    else (pool, logs)

/-- Delta application of a successful `TurnResponse`, in source order:
systemLogs, resourceChanges, inventoryUpdates, nearbyItems merge,
characterStatusUpdates, wholesale roster replacement (status defaulted to
`[]`), timeData, then the mapData adoption which clears the ground pool
when the location name changed, the GM story entry, and the game-over
result. -/
def applyTurnResponse (permadeathEnabled : Bool) (st : GameState) (resp : TurnResponse) :
    GameState :=
  let logs1 := st.mechanicLogs ++
    (match resp.systemLogs with
     | some ls => ls.map (fun l => (⟨"Sistema", l, "system-info", none⟩ : MechanicLog))
     | none => [])
  let rcAcc :=
    match resp.resourceChanges with
    | some rcs => rcs.foldl (applyResourceChange permadeathEnabled) (st.activeCharacters, logs1)
    | none => (st.activeCharacters, logs1)
  let invAcc :=
    match resp.inventoryUpdates with
    | some us => us.foldl applyInventoryUpdate (rcAcc.1, st.nearbyItems, rcAcc.2)
    | none => (rcAcc.1, st.nearbyItems, rcAcc.2)
  let nearAcc := mergeNearbyItems invAcc.2.1 invAcc.2.2 resp.nearbyItems
  let chars2 :=
    match resp.characterStatusUpdates with
    | some us => us.foldl (fun cs u =>
        (updateFirstBy (fun c => c.name == u.characterName)
          (fun c => { c with status := some u.status }) cs).1) invAcc.1
    | none => invAcc.1
  let enemies2 :=
    match resp.activeEnemies with
    | some es => es.map (fun e => { e with status := some ((e.status).getD []) })
    | none => st.enemies
  let allies2 :=
    match resp.activeAllies with
    | some l => l.map (fun a => { a with status := some ((a.status).getD []) })
    | none => st.activeAllies
  let neutrals2 :=
    match resp.activeNeutrals with
    | some l => l
    | none => st.activeNeutrals
  let time2 :=
    match resp.timeData with
    | some t => t
    | none => st.timeData
  let mapStep : List Item × List MechanicLog × Option MapData :=
    match resp.mapData with
    | some md =>
      if (match st.mapData with
          | some old => md.locationName != old.locationName
          | none => false) then
        ([], nearAcc.2 ++
          [⟨"Ambiente", "Nova localização alcançada. Itens anteriores deixados para trás.",
            "system-info", none⟩], some md)
      else (nearAcc.1, nearAcc.2, some md)
    | none => (nearAcc.1, nearAcc.2, st.mapData)
  let result2 :=
    if resp.isGameOver then
      match resp.gameResult with
      | some g => some (if g = GameResultTag.VICTORY then "victory" else "defeat")
      | none => st.gameResult
    else st.gameResult
  { st with
    activeCharacters := chars2,
    enemies := enemies2,
    activeAllies := allies2,
    activeNeutrals := neutrals2,
    timeData := time2,
    nearbyItems := mapStep.1,
    mechanicLogs := mapStep.2.1,
    mapData := mapStep.2.2,
    history := st.history ++ [⟨"gm", resp.storyText⟩],
    gameResult := result2 }

/-- Action text `actions[c.id] || "Aguarda..."` (empty string is falsy). -/
def actionText (actions : String → Option String) (cid : String) : String :=
  match actions cid with
  | some a => if a = "" then "Aguarda..." else a
  | none => "Aguarda..."

/-- The player-turn history entry content: one `> **name**: action` line
per character, downed characters marked when permadeath is on. -/
def contentLog (permadeathEnabled : Bool) (actions : String → Option String)
    (chars : List Character) : String :=
  String.intercalate "\n" (chars.map (fun c =>
    if permadeathEnabled ∧ c.derived.hp ≤ 0 then "> **" ++ c.name ++ "**: (CAÍDO/INCONSCIENTE)"
    else "> **" ++ c.name ++ "**: " ++ actionText actions c.id))

/-- The dice-rolling `forEach` preceding the Oracle call.  Characters that
are down under permadeath are skipped.  The karmic-bias read inside
`rollDie` uses the render's (stale) `karmaMap` snapshot, while the queued
`setKarmaMap` updates compose in order — both are modelled faithfully.
`selectedDice[c.id] || 'D20'` supplies the die size; `rands` supplies the
two uniform draws per entity. -/
def rollPhase (karmicDiceEnabled permadeathEnabled : Bool)
    (selectedDice : String → Option Nat) (rands : String → Nat × Nat)
    (staleKarma : List (String × Int))
    (chars : List Character) (acc : List (String × Int) × List MechanicLog) :
    List (String × Int) × List MechanicLog :=
  chars.foldl (fun acc c =>
    if permadeathEnabled ∧ c.derived.hp ≤ 0 then acc
    else
      let sides := (selectedDice c.id).getD 20
      let streakForBias := lookupKarma staleKarma c.id
      let result := rollDie karmicDiceEnabled streakForBias (rands c.id).1 (rands c.id).2
      let isSuccess := result > rollThreshold sides
      (setKarma acc.1 c.id (streakNext (lookupKarma acc.1 c.id) isSuccess),
       acc.2 ++ [⟨c.name, "Tentativa de Ação", "player-roll", some (result : Int)⟩])) acc

/-- Turn submission `submitTurn`: bails out without world data; rolls dice for every
non-downed character (karma + logs), appends the player-turn entry, then
either applies the Oracle's deltas or — on failure — appends the single
fallback GM entry, leaving everything else untouched. -/
def submitTurn (karmicDiceEnabled permadeathEnabled : Bool)
    (selectedDice : String → Option Nat) (actions : String → Option String)
    (rands : String → Nat × Nat) (hasWorldData : Bool)
    (st : GameState) (oracleOutcome : Option TurnResponse) : GameState :=
  if hasWorldData then
    let rolled := rollPhase karmicDiceEnabled permadeathEnabled selectedDice rands
      st.karmaMap st.activeCharacters (st.karmaMap, [])
    let st1 : GameState :=
      { st with karmaMap := rolled.1,
                mechanicLogs := st.mechanicLogs ++ rolled.2,
                history := st.history ++
                  [⟨"player", contentLog permadeathEnabled actions st.activeCharacters⟩] }
    match oracleOutcome with
    | some resp => applyTurnResponse permadeathEnabled st1 resp
    | none => { st1 with history := st1.history ++ [⟨"gm", "Erro na conexão divina..."⟩] }
  else st

/-! ## Operation sequences and invariants -/

/-- A UI-issued inventory/equipment/trade command, for stating properties
of arbitrary operation sequences. -/
inductive InvOp
  | take (charId : String) (item : Item) (itemIndex : Nat)
  | drop (charId : String) (item : Item) (itemIndex : Nat)
  | give (sourceCharId targetCharId : String) (itemIndex : Nat)
  | equip (charId : String) (item : Item) (itemIndex : Nat)
  | unequip (charId : String) (slot : EquipmentSlot)
  | buy (charId : String) (item : Item) (npcId : String)
  | sell (charId : String) (item : Item) (itemIndex : Nat)
deriving DecidableEq, Repr

def applyInvOp (st : GameState) : InvOp → GameState
  | .take charId item i => handleTakeItem st charId item i
  | .drop charId item i => handleDropItem st charId item i
  | .give src tgt i => handleGiveItem st src tgt i
  | .equip charId item i => handleEquipItem st charId item i
  | .unequip charId slot => handleUnequipItem st charId slot
  | .buy charId item npc => handleBuyItem st charId item npc
  | .sell charId item i => handleSellItem st charId item i

/-- The equipped back item's `capacityBonus || 0`, so that
`getInventoryLimit c = 7 + backBonus c`. -/
def backBonus (c : Character) : Int :=
  match c.equipment.back with
  | some it => match it.capacityBonus with
               | some b => b
               | none => 0
  | none => 0

/-- The `capacityBonus || 0` of an arbitrary item. -/
def capBonusOf (item : Item) : Int :=
  match item.capacityBonus with
  | some b => b
  | none => 0

/-- Every character's bag holds pairwise distinct item names. -/
def NamesNodup (st : GameState) : Prop :=
  ∀ c ∈ st.activeCharacters, (c.items.map Item.name).Nodup

/-- The capacity invariant for one character, strengthened with
non-negativity of the back bonus (needed to push it through `equip`). -/
def CapOK (c : Character) : Prop :=
  (c.items.length : Int) ≤ 7 + backBonus c ∧ 0 ≤ backBonus c

/-- Operations drawn from {takeItem, giveItem}. -/
def TakeOrGive : InvOp → Prop
  | .take _ _ _ => True
  | .give _ _ _ => True
  | _ => False

/-- The five operation kinds named by the capacity claim, restricted to
the cases the code actually keeps safe: any take/give/buy, equips of
items with non-negative `capacityBonus`, and unequips of the chest or
hands slots (unequipping the back slot is checked against the
pre-removal limit and is the violating case). -/
def CapSafeOp : InvOp → Prop
  | .take _ _ _ => True
  | .give _ _ _ => True
  | .buy _ _ _ => True
  | .equip _ item _ => 0 ≤ capBonusOf item
  | .unequip _ slot => slot ≠ EquipmentSlot.back
  | _ => False

/-! ## Concrete fixtures -/

def mkItem (name : String) : Item := ⟨none, name, "", "", none, none, none, none⟩

def mkPricedItem (name : String) (p : Int) : Item :=
  ⟨none, name, "", "", none, none, none, some p⟩

def baseAttrs : Attributes := ⟨1, 1, 1, 1, 1, 1, 1, 1⟩

def mkChar (id name : String) (hp wealth : Int) (items : List Item) : Character :=
  ⟨id, name, "", "", "", "", none, [], baseAttrs, ⟨hp, 10, 10⟩, items,
   ⟨none, none, none⟩, some [], wealth⟩

def mkEnemy (id name : String) (hp : Int) : Enemy :=
  ⟨id, name, "", hp, hp, 0, 0, 0, 0, .Minion, some [], none⟩

def baseTime : TimeData := ⟨1, .DAY, "O dia começa..."⟩

def mkState (chars : List Character) (enemies : List Enemy) (nearby : List Item) : GameState :=
  ⟨chars, [], enemies, [], [], nearby, [], none, [], baseTime, none, none⟩

def emptyResponse : TurnResponse :=
  ⟨"", none, false, none, none, none, none, none, none, none, none, none, none⟩

/-- Combat scene: one goblin on the field, Ana holding a potion, Bia with
an empty bag. -/
def combatState : GameState :=
  mkState [mkChar "a" "Ana" 10 0 [mkItem "Poção"], mkChar "b" "Bia" 10 0 []]
    [mkEnemy "e1" "Goblin" 5] []

/-- A scene with an enemy named "Goblin" and no character of that name. -/
def goblinState : GameState :=
  mkState [mkChar "a" "Ana" 10 0 []] [mkEnemy "e1" "Goblin" 10] []

def goblinResponse : TurnResponse :=
  { emptyResponse with resourceChanges := some [⟨"Goblin", .hp, -3, "golpe"⟩] }

def brunoState : GameState := mkState [mkChar "b" "Bruno" 5 0 []] [] []

def brunoResponse : TurnResponse :=
  { emptyResponse with resourceChanges := some [⟨"Bruno", .hp, -20, "queda"⟩] }

/-- Ana already holds a "Poção"; another "Poção" lies on the ground. -/
def dupTakeState : GameState :=
  mkState [mkChar "a" "Ana" 10 0 [mkItem "Poção"]] [] [mkItem "Poção"]

/-- Ana holds an "Espada" (price 10) and 100 coins at a merchant's stall. -/
def dupBuyState : GameState :=
  mkState [mkChar "a" "Ana" 10 100 [mkPricedItem "Espada" 10]] [] []

def backpack : Item := ⟨none, "Mochila", "", "", none, some .back, some 3, none⟩

/-- Rui has the +3 backpack equipped and 8 items in the bag (8 < 10, so
unequipping the back slot is allowed by the code's check). -/
def ruiState : GameState :=
  mkState [{ mkChar "r" "Rui" 10 0
      (["i1", "i2", "i3", "i4", "i5", "i6", "i7", "i8"].map mkItem) with
      equipment := ⟨some backpack, none, none⟩ }] [] []

/-- Fabi's bag is at base capacity (7 of 7, nothing equipped). -/
def fullState : GameState :=
  mkState [mkChar "f" "Fabi" 10 0
    (["f1", "f2", "f3", "f4", "f5", "f6", "f7"].map mkItem)] [] []

def forestMap : MapData := ⟨"Forest", [], []⟩

def caveMap : MapData := ⟨"Cave", [], []⟩

/-- Two items on the ground in the Forest. -/
def forestState : GameState :=
  { mkState [mkChar "a" "Ana" 10 0 []] [] [mkItem "Corda", mkItem "Tocha"] with
    mapData := some forestMap }

/-- The turn moves the party to the Cave and reports a fresh ground item. -/
def caveResponse : TurnResponse :=
  { emptyResponse with nearbyItems := some [mkItem "Gema"], mapData := some caveMap }

/-! ## Helper lemmas -/

theorem updateFirstBy_not_found {α : Type} (p : α → Bool) (f : α → α) :
    ∀ (l : List α), (∀ x ∈ l, p x = false) → updateFirstBy p f l = (l, none)
  | [], _ => rfl
  | x :: xs, h => by
      have hx : p x = false := h x (List.mem_cons_self x xs)
      have hxs := updateFirstBy_not_found p f xs (fun y hy => h y (List.mem_cons_of_mem x hy))
      simp [updateFirstBy, hx, hxs]

theorem updateFirstBy_mem {α : Type} (p : α → Bool) (f : α → α) :
    ∀ {l : List α} {y : α}, y ∈ (updateFirstBy p f l).1 → y ∈ l ∨ ∃ x ∈ l, y = f x := by
  intro l
  induction l with
  | nil => intro y hy; exact absurd hy (by simp [updateFirstBy])
  | cons x xs ih =>
      intro y hy
      by_cases hx : p x = true
      · simp [updateFirstBy, hx] at hy
        rcases hy with hy | hy
        · exact Or.inr ⟨x, by simp, hy⟩
        · exact Or.inl (List.mem_cons_of_mem x hy)
      · simp [updateFirstBy, Bool.of_not_eq_true hx] at hy
        rcases hy with hy | hy
        · exact Or.inl (by simp [hy])
        · rcases ih hy with h | ⟨z, hz, hzy⟩
          · exact Or.inl (List.mem_cons_of_mem x h)
          · exact Or.inr ⟨z, List.mem_cons_of_mem x hz, hzy⟩

theorem map_id_of {α : Type} (f : α → α) :
    ∀ (l : List α), (∀ x ∈ l, f x = x) → l.map f = l
  | [], _ => rfl
  | x :: xs, h => by
      simp [h x (List.mem_cons_self x xs),
            map_id_of f xs (fun y hy => h y (List.mem_cons_of_mem x hy))]

theorem buyCharUpdate_wealth (charId : String) (item : Item) (p : Int) (c : Character)
    (h : 0 ≤ c.wealth) : 0 ≤ ((buyCharUpdate charId item p c).1).wealth := by
  unfold buyCharUpdate
  split_ifs <;> simp <;> omega

theorem sellPriceOf_nonneg (item : Item)
    (h : match item.price with | some p => 0 ≤ p | none => True) :
    0 ≤ sellPriceOf item := by
  unfold sellPriceOf
  revert h
  cases item.price with
  | none => exact fun _ => Int.fdiv_nonneg (by norm_num) (by norm_num)
  | some p =>
      intro h
      by_cases h0 : p = 0 <;> simp [h0] <;>
        exact Int.fdiv_nonneg (by omega) (by norm_num)

theorem removeCharUpdate_wealth (u : InventoryUpdate) (c : Character)
    (h : 0 ≤ c.wealth) : 0 ≤ (removeCharUpdate u c).wealth := by
  unfold removeCharUpdate
  cases u.cost with
  | none => simpa using h
  | some cost => by_cases h0 : cost = 0 <;> simp [h0] <;> omega

theorem map_key_eq {α β : Type} (f : α → α) (k : α → β) :
    ∀ (l : List α), (∀ x ∈ l, k (f x) = k x) → (l.map f).map k = l.map k
  | [], _ => rfl
  | a :: l, h => by
      simp only [List.map_cons, List.map_map]
      have ha := h a (List.mem_cons_self a l)
      have hl := map_key_eq f k l (fun x hx => h x (List.mem_cons_of_mem a hx))
      simp only [List.map_map] at hl
      simp [Function.comp, ha, hl]

theorem map_fst_key {α β γ : Type} (g : α → α × γ) (k : α → β) :
    ∀ (l : List α), (∀ x ∈ l, k ((g x).1) = k x) → ((l.map g).map Prod.fst).map k = l.map k
  | [], _ => rfl
  | a :: l, h => by
      have ha := h a (List.mem_cons_self a l)
      have hl := map_fst_key g k l (fun x hx => h x (List.mem_cons_of_mem a hx))
      simp only [List.map_cons, List.map_map] at hl ⊢
      simp [Function.comp, ha, hl]

theorem takeCharUpdate_id (charId : String) (item : Item) (c : Character) :
    ((takeCharUpdate charId item c).1).id = c.id := by
  unfold takeCharUpdate; split_ifs <;> rfl

theorem giveCharUpdate_id (src tgt : String) (i : Nat) (itg : Item) (c : Character) :
    (giveCharUpdate src tgt i itg c).id = c.id := by
  unfold giveCharUpdate; split_ifs <;> rfl

theorem equipCharUpdate_id (charId : String) (slot : EquipmentSlot) (item : Item)
    (i : Nat) (c : Character) : ((equipCharUpdate charId slot item i c).1).id = c.id := by
  unfold equipCharUpdate
  split
  · split <;> rfl
  · rfl

theorem unequipCharUpdate_id (charId : String) (slot : EquipmentSlot) (c : Character) :
    ((unequipCharUpdate charId slot c).1).id = c.id := by
  unfold unequipCharUpdate
  split
  · split
    · rfl
    · split_ifs <;> rfl
  · rfl

theorem buyCharUpdate_id (charId : String) (item : Item) (p : Int) (c : Character) :
    ((buyCharUpdate charId item p c).1).id = c.id := by
  unfold buyCharUpdate; split_ifs <;> rfl

theorem sellCharUpdate_id (charId : String) (sp : Int) (i : Nat) (c : Character) :
    (sellCharUpdate charId sp i c).id = c.id := by
  unfold sellCharUpdate; split_ifs <;> rfl

/-- Every UI operation preserves the roster's id list: characters are
mapped in place, never inserted, removed or re-identified. -/
theorem applyInvOp_ids (st : GameState) (op : InvOp) :
    ((applyInvOp st op).activeCharacters).map Character.id =
      st.activeCharacters.map Character.id := by
  cases op with
  | take charId item i =>
      by_cases h : st.enemies.length > 0
      · simp [applyInvOp, handleTakeItem, h]
      · simp only [applyInvOp, handleTakeItem, h, if_neg, if_pos]
        exact map_fst_key _ _ _ (fun x _ => takeCharUpdate_id charId item x)
  | drop charId item i =>
      by_cases h : st.enemies.length > 0
      · simp [applyInvOp, handleDropItem, h]
      · simp only [applyInvOp, handleDropItem, h, if_neg, if_pos]
        exact map_key_eq _ _ _ (fun x _ => by
          by_cases hx : (x.id == charId) = true <;> simp [hx])
  | give src tgt i =>
      cases hsrc : st.activeCharacters.find? (fun c => c.id == src) with
      | none => simp [applyInvOp, handleGiveItem, hsrc]
      | some sc =>
        cases htgt : st.activeCharacters.find? (fun c => c.id == tgt) with
        | none => simp [applyInvOp, handleGiveItem, hsrc, htgt]
        | some tc =>
          cases hget : sc.items[i]? with
          | none => simp [applyInvOp, handleGiveItem, hsrc, htgt, hget]
          | some itg =>
            simp only [applyInvOp, handleGiveItem, List.get?_eq_getElem?, hsrc, htgt, hget]
            split_ifs <;> simp [GameState.addLog, giveCharUpdate_id]
  | equip charId item i =>
      cases hs : item.slot with
      | none => simp [applyInvOp, handleEquipItem, hs]
      | some slot =>
          simp only [applyInvOp, handleEquipItem, hs, GameState.addLog]
          exact map_fst_key _ _ _ (fun x _ => equipCharUpdate_id charId slot item i x)
  | unequip charId slot =>
      simp only [applyInvOp, handleUnequipItem, GameState.addLog]
      exact map_fst_key _ _ _ (fun x _ => unequipCharUpdate_id charId slot x)
  | buy charId item npc =>
      cases hp : item.price with
      | none => simp [applyInvOp, handleBuyItem, hp]
      | some p =>
          by_cases h0 : p = 0
          · simp [applyInvOp, handleBuyItem, hp, h0]
          · simp only [applyInvOp, handleBuyItem, hp, h0, if_neg]
            exact map_fst_key _ _ _ (fun x _ => buyCharUpdate_id charId item p x)
  | sell charId item i =>
      cases ht : st.tradeTarget with
      | none => simp [applyInvOp, handleSellItem, ht]
      | some tt =>
          simp only [applyInvOp, handleSellItem, ht, GameState.addLog]
          exact map_key_eq _ _ _ (fun x _ => sellCharUpdate_id charId (sellPriceOf item) i x)

theorem nodup_names_append (items : List Item) (it : Item)
    (h : (items.map Item.name).Nodup)
    (hnot : items.any (fun i => i.name == it.name) = false) :
    ((items ++ [it]).map Item.name).Nodup := by
  have hnotin : it.name ∉ items.map Item.name := by
    intro hmem
    obtain ⟨x, hx, hxe⟩ := List.mem_map.mp hmem
    have : items.any (fun i => i.name == it.name) = true :=
      List.any_eq_true.mpr ⟨x, hx, by simp [hxe]⟩
    simp [this] at hnot
  rw [List.map_append]
  refine List.Nodup.append h (by simp) ?_
  intro a ha ha'
  simp only [List.map_cons, List.map_nil, List.mem_singleton] at ha'
  exact hnotin (ha' ▸ ha)

theorem nodup_names_eraseIdx (items : List Item) (i : Nat)
    (h : (items.map Item.name).Nodup) :
    (((items.eraseIdx i)).map Item.name).Nodup :=
  h.sublist ((items.eraseIdx_sublist i).map Item.name)

theorem find_id_unique :
    ∀ (l : List Character) (tid : String) (tc c : Character),
      (l.map Character.id).Nodup →
      l.find? (fun x => x.id == tid) = some tc →
      c ∈ l → c.id = tid → c = tc := by
  intro l
  induction l with
  | nil => intro tid tc c _ hf; simp at hf
  | cons x xs ih =>
      intro tid tc c hnd hf hc hcid
      by_cases hx : (x.id == tid) = true
      · simp only [List.find?, hx] at hf
        injection hf with hf
        subst hf
        rcases List.mem_cons.mp hc with rfl | hc'
        · rfl
        · exfalso
          have hxid : x.id = tid := by simpa using hx
          have hmem : c.id ∈ xs.map Character.id := List.mem_map_of_mem Character.id hc'
          rw [hcid, ← hxid] at hmem
          exact (List.nodup_cons.mp (by simpa using hnd)).1 hmem
      · have hx' : (x.id == tid) = false := by simpa using hx
        simp only [List.find?, hx'] at hf
        rcases List.mem_cons.mp hc with rfl | hc'
        · exact absurd (by simp [hcid]) hx
        · exact ih tid tc c (List.nodup_cons.mp (by simpa using hnd)).2 hf hc' hcid

theorem take_preserves_nodup (st : GameState) (charId : String) (item : Item) (i : Nat)
    (h : ∀ c ∈ st.activeCharacters, (c.items.map Item.name).Nodup) :
    ∀ c ∈ (handleTakeItem st charId item i).activeCharacters,
      (c.items.map Item.name).Nodup := by
  by_cases hcomb : st.enemies.length > 0
  · simpa [handleTakeItem, hcomb] using h
  · intro c hc
    simp only [handleTakeItem, hcomb, if_neg, if_pos, List.map_map] at hc
    obtain ⟨x, hx, hfx⟩ := List.mem_map.mp hc
    subst hfx
    show (((takeCharUpdate charId item x).1).items.map Item.name).Nodup
    unfold takeCharUpdate
    split_ifs with h1 h2 h3
    · exact h x hx
    · exact h x hx
    · exact nodup_names_append _ _ (h x hx) (by simpa using h2)
    · exact h x hx

theorem give_preserves_nodup (st : GameState) (src tgt : String) (i : Nat)
    (hids : (st.activeCharacters.map Character.id).Nodup)
    (h : ∀ c ∈ st.activeCharacters, (c.items.map Item.name).Nodup) :
    ∀ c ∈ (handleGiveItem st src tgt i).activeCharacters,
      (c.items.map Item.name).Nodup := by
  cases hsrc : st.activeCharacters.find? (fun c => c.id == src) with
  | none => simpa [handleGiveItem, hsrc] using h
  | some sc =>
    cases htgt : st.activeCharacters.find? (fun c => c.id == tgt) with
    | none => simpa [handleGiveItem, hsrc, htgt] using h
    | some tc =>
      cases hget : sc.items[i]? with
      | none => simpa [handleGiveItem, List.get?_eq_getElem?, hsrc, htgt, hget] using h
      | some itg =>
        simp only [handleGiveItem, List.get?_eq_getElem?, hsrc, htgt, hget]
        split_ifs with hcap hdup
        · simpa [GameState.addLog] using h
        · simpa [GameState.addLog] using h
        · intro c hc
          simp only [GameState.addLog] at hc
          obtain ⟨x, hx, hfx⟩ := List.mem_map.mp hc
          subst hfx
          unfold giveCharUpdate
          split_ifs with h1 h2
          · exact nodup_names_eraseIdx _ _ (h x hx)
          · have hxid : x.id = tgt := by simpa using h2
            have hxtc : x = tc := find_id_unique _ _ _ _ hids htgt hx hxid
            subst hxtc
            exact nodup_names_append _ _ (h x hx) (by simpa using hdup)
          · exact h x hx

theorem getInventoryLimit_eq (c : Character) : getInventoryLimit c = 7 + backBonus c := rfl

theorem takeCharUpdate_cap (charId : String) (item : Item) (c : Character) (h : CapOK c) :
    CapOK ((takeCharUpdate charId item c).1) := by
  unfold takeCharUpdate
  split_ifs with h1 h2 h3
  · exact h
  · exact h
  · obtain ⟨hlen, hb⟩ := h
    have h3' : ¬((c.items.length : Int) ≥ 7 + backBonus c) := h3
    refine ⟨?_, hb⟩
    show ((c.items ++ [item]).length : Int) ≤ 7 + backBonus c
    simp only [List.length_append, List.length_singleton]
    push_cast
    omega
  · exact h

theorem buyCharUpdate_cap (charId : String) (item : Item) (p : Int) (c : Character)
    (h : CapOK c) : CapOK ((buyCharUpdate charId item p c).1) := by
  unfold buyCharUpdate
  split_ifs with h1 h2 h3
  · exact h
  · exact h
  · obtain ⟨hlen, hb⟩ := h
    have h3' : ¬((c.items.length : Int) ≥ 7 + backBonus c) := h3
    refine ⟨?_, hb⟩
    show ((c.items ++ [item]).length : Int) ≤ 7 + backBonus c
    simp only [List.length_append, List.length_singleton]
    push_cast
    omega
  · exact h

theorem equipCharUpdate_cap (charId : String) (slot : EquipmentSlot) (item : Item)
    (i : Nat) (c : Character) (hb : 0 ≤ capBonusOf item) (h : CapOK c) :
    CapOK ((equipCharUpdate charId slot item i c).1) := by
  unfold equipCharUpdate
  by_cases h1 : (c.id == charId) = true
  · rw [if_pos h1]
    cases hocc : c.equipment.get slot with
    | some it2 => exact h
    | none =>
        obtain ⟨hlen, hbc⟩ := h
        have hlen' : ((c.items.eraseIdx i).length : Int) ≤ (c.items.length : Int) := by
          exact_mod_cast (c.items.eraseIdx_sublist i).length_le
        cases slot with
        | back =>
            have hb0 : backBonus c = 0 := by
              unfold backBonus
              rw [show c.equipment.back = none from hocc]
            refine ⟨?_, hb⟩
            show ((c.items.eraseIdx i).length : Int) ≤ 7 + backBonus { c with equipment := (c.equipment.set EquipmentSlot.back (some item)), items := (c.items.eraseIdx i) }
            have hbb : backBonus { c with equipment := (c.equipment.set EquipmentSlot.back (some item)), items := (c.items.eraseIdx i) } = capBonusOf item := rfl
            rw [hbb]
            omega
        | chest =>
            refine ⟨?_, hbc⟩
            show ((c.items.eraseIdx i).length : Int) ≤ 7 + backBonus c
            omega
        | hands =>
            refine ⟨?_, hbc⟩
            show ((c.items.eraseIdx i).length : Int) ≤ 7 + backBonus c
            omega
  · rw [if_neg h1]
    exact h

theorem unequipCharUpdate_cap (charId : String) (slot : EquipmentSlot) (c : Character)
    (hs : slot ≠ EquipmentSlot.back) (h : CapOK c) :
    CapOK ((unequipCharUpdate charId slot c).1) := by
  unfold unequipCharUpdate
  by_cases h1 : (c.id == charId) = true
  · rw [if_pos h1]
    cases hocc : c.equipment.get slot with
    | none => exact h
    | some item =>
        split_ifs with h2
        · exact h
        · obtain ⟨hlen, hbc⟩ := h
          have h2' : ¬((c.items.length : Int) ≥ 7 + backBonus c) := h2
          cases slot with
          | back => exact absurd rfl hs
          | chest =>
              refine ⟨?_, hbc⟩
              show ((c.items ++ [item]).length : Int) ≤ 7 + backBonus c
              simp only [List.length_append, List.length_singleton]
              push_cast
              omega
          | hands =>
              refine ⟨?_, hbc⟩
              show ((c.items ++ [item]).length : Int) ≤ 7 + backBonus c
              simp only [List.length_append, List.length_singleton]
              push_cast
              omega
  · rw [if_neg h1]
    exact h

theorem take_preserves_cap (st : GameState) (charId : String) (item : Item) (i : Nat)
    (h : ∀ c ∈ st.activeCharacters, CapOK c) :
    ∀ c ∈ (handleTakeItem st charId item i).activeCharacters, CapOK c := by
  by_cases hcomb : st.enemies.length > 0
  · simpa [handleTakeItem, hcomb] using h
  · intro c hc
    simp only [handleTakeItem, hcomb, if_neg, if_pos, List.map_map] at hc
    obtain ⟨x, hx, hfx⟩ := List.mem_map.mp hc
    subst hfx
    exact takeCharUpdate_cap charId item x (h x hx)

theorem buy_preserves_cap (st : GameState) (charId : String) (item : Item) (npc : String)
    (h : ∀ c ∈ st.activeCharacters, CapOK c) :
    ∀ c ∈ (handleBuyItem st charId item npc).activeCharacters, CapOK c := by
  cases hp : item.price with
  | none => simpa [handleBuyItem, hp] using h
  | some p =>
      by_cases h0 : p = 0
      · simpa [handleBuyItem, hp, h0] using h
      · intro c hc
        simp only [handleBuyItem, hp, h0, if_neg, List.map_map] at hc
        obtain ⟨x, hx, hfx⟩ := List.mem_map.mp hc
        subst hfx
        exact buyCharUpdate_cap charId item p x (h x hx)

theorem equip_preserves_cap (st : GameState) (charId : String) (item : Item) (i : Nat)
    (hb : 0 ≤ capBonusOf item) (h : ∀ c ∈ st.activeCharacters, CapOK c) :
    ∀ c ∈ (handleEquipItem st charId item i).activeCharacters, CapOK c := by
  cases hs : item.slot with
  | none => simpa [handleEquipItem, hs] using h
  | some slot =>
      intro c hc
      simp only [handleEquipItem, hs, GameState.addLog, List.map_map] at hc
      obtain ⟨x, hx, hfx⟩ := List.mem_map.mp hc
      subst hfx
      exact equipCharUpdate_cap charId slot item i x hb (h x hx)

theorem unequip_preserves_cap (st : GameState) (charId : String) (slot : EquipmentSlot)
    (hs : slot ≠ EquipmentSlot.back) (h : ∀ c ∈ st.activeCharacters, CapOK c) :
    ∀ c ∈ (handleUnequipItem st charId slot).activeCharacters, CapOK c := by
  intro c hc
  simp only [handleUnequipItem, GameState.addLog, List.map_map] at hc
  obtain ⟨x, hx, hfx⟩ := List.mem_map.mp hc
  subst hfx
  exact unequipCharUpdate_cap charId slot x hs (h x hx)

theorem give_preserves_cap (st : GameState) (src tgt : String) (i : Nat)
    (hids : (st.activeCharacters.map Character.id).Nodup)
    (h : ∀ c ∈ st.activeCharacters, CapOK c) :
    ∀ c ∈ (handleGiveItem st src tgt i).activeCharacters, CapOK c := by
  cases hsrc : st.activeCharacters.find? (fun c => c.id == src) with
  | none => simpa [handleGiveItem, hsrc] using h
  | some sc =>
    cases htgt : st.activeCharacters.find? (fun c => c.id == tgt) with
    | none => simpa [handleGiveItem, hsrc, htgt] using h
    | some tc =>
      cases hget : sc.items[i]? with
      | none => simpa [handleGiveItem, List.get?_eq_getElem?, hsrc, htgt, hget] using h
      | some itg =>
        simp only [handleGiveItem, List.get?_eq_getElem?, hsrc, htgt, hget]
        split_ifs with hcap hdup
        · simpa [GameState.addLog] using h
        · simpa [GameState.addLog] using h
        · intro c hc
          simp only [GameState.addLog] at hc
          obtain ⟨x, hx, hfx⟩ := List.mem_map.mp hc
          subst hfx
          unfold giveCharUpdate
          split_ifs with h1 h2
          · obtain ⟨hlen, hbc⟩ := h x hx
            have hle : ((x.items.eraseIdx i).length : Int) ≤ (x.items.length : Int) := by
              exact_mod_cast (x.items.eraseIdx_sublist i).length_le
            refine ⟨?_, hbc⟩
            show ((x.items.eraseIdx i).length : Int) ≤ 7 + backBonus x
            omega
          · have hxid : x.id = tgt := by simpa using h2
            have hxtc : x = tc := find_id_unique _ _ _ _ hids htgt hx hxid
            subst hxtc
            obtain ⟨hlen, hbc⟩ := h x hx
            have hcap' : ¬((x.items.length : Int) ≥ 7 + backBonus x) := hcap
            refine ⟨?_, hbc⟩
            show ((x.items ++ [itg]).length : Int) ≤ 7 + backBonus x
            simp only [List.length_append, List.length_singleton]
            push_cast
            omega
          · exact h x hx

theorem capok_fold (st : GameState) (ops : List InvOp)
    (hids : (st.activeCharacters.map Character.id).Nodup)
    (h0 : ∀ c ∈ st.activeCharacters, CapOK c)
    (hops : ∀ op ∈ ops, CapSafeOp op) :
    ∀ c ∈ (ops.foldl applyInvOp st).activeCharacters, CapOK c := by
  induction ops generalizing st with
  | nil => simpa using h0
  | cons op ops ih =>
      have hop := hops op (List.mem_cons_self op ops)
      have hids' : ((applyInvOp st op).activeCharacters.map Character.id).Nodup := by
        rw [applyInvOp_ids]; exact hids
      have h0' : ∀ c ∈ (applyInvOp st op).activeCharacters, CapOK c := by
        cases op with
        | take charId item i => exact take_preserves_cap st charId item i h0
        | give src tgt i => exact give_preserves_cap st src tgt i hids h0
        | drop _ _ _ => exact hop.elim
        | equip charId item i => exact equip_preserves_cap st charId item i hop h0
        | unequip charId slot => exact unequip_preserves_cap st charId slot hop h0
        | buy charId item npc => exact buy_preserves_cap st charId item npc h0
        | sell _ _ _ => exact hop.elim
      exact ih (applyInvOp st op) hids' h0'
        (fun o ho => hops o (List.mem_cons_of_mem op ho))

theorem streakNext_bounds (s : Int) (b : Bool) (h1 : -5 ≤ s) (h2 : s ≤ 5) :
    -5 ≤ streakNext s b ∧ streakNext s b ≤ 5 := by
  cases b <;> simp [streakNext] <;> split_ifs <;> omega

theorem streak_foldl_bounds {α : Type} (g : Int → α → Bool) :
    ∀ (l : List α) (s : Int), -5 ≤ s → s ≤ 5 →
      -5 ≤ l.foldl (fun t a => streakNext t (g t a)) s ∧
        l.foldl (fun t a => streakNext t (g t a)) s ≤ 5
  | [], s, h1, h2 => by simpa using ⟨h1, h2⟩
  | a :: l, s, h1, h2 => by
      have hb := streakNext_bounds s (g s a) h1 h2
      simpa using streak_foldl_bounds g l (streakNext s (g s a)) hb.1 hb.2

/-! ## Claim theorems -/

/-- C9: for every entity and any sequence of rolls (with success defined
as the roll result exceeding `ceil(N/2)`), the karma streak starting at 0
stays within `[-5, +5]`, and each single update is exactly
`min(max(s,0)+1, 5)` on success and `max(min(s,0)-1, -5)` on failure, so
no value outside the interval is ever reachable. -/
theorem karma_streak_clamped :
    (∀ (karmicDiceEnabled : Bool) (rolls : List (Nat × Nat × Nat)),
        -5 ≤ rollSession karmicDiceEnabled rolls ∧ rollSession karmicDiceEnabled rolls ≤ 5) ∧
    (∀ (s : Int) (b : Bool),
        streakNext s b = if b then min (max s 0 + 1) 5 else max (min s 0 - 1) (-5)) := by
  constructor
  · intro karmic rolls
    exact streak_foldl_bounds
      (fun t r => rollDie karmic t r.2.1 r.2.2 > rollThreshold r.1) rolls 0
      (by omega) (by omega)
  · intro s b
    cases b <;> simp [streakNext] <;> split_ifs <;> omega

/-- C1: when the Oracle call of a submitted turn fails, none of the
turn's deltas are applied — characters, enemies, allies, neutrals, the
ground-item pool, the map and the time state keep their values from
before the call — and exactly one generic fallback GM entry is appended
to the narrative history, after the player-turn entry. -/
theorem oracle_failure_leaves_state_untouched
    (karmicDiceEnabled permadeathEnabled : Bool)
    (selectedDice : String → Option Nat) (actions : String → Option String)
    (rands : String → Nat × Nat) (st : GameState) :
    let st' := submitTurn karmicDiceEnabled permadeathEnabled selectedDice actions rands
      true st none
    st'.activeCharacters = st.activeCharacters ∧
    st'.enemies = st.enemies ∧
    st'.activeAllies = st.activeAllies ∧
    st'.activeNeutrals = st.activeNeutrals ∧
    st'.nearbyItems = st.nearbyItems ∧
    st'.mapData = st.mapData ∧
    st'.timeData = st.timeData ∧
    st'.tradeTarget = st.tradeTarget ∧
    st'.gameResult = st.gameResult ∧
    st'.history = st.history ++
      [⟨"player", contentLog permadeathEnabled actions st.activeCharacters⟩,
       ⟨"gm", "Erro na conexão divina..."⟩] := by
  simp [submitTurn]

/-- C2 counterexample: with a goblin on the field, `handleGiveItem`
performs the transfer anyway — the state changes (Ana's potion moves to
Bia), so the five operations are not all no-ops in combat. -/
theorem combat_lock_counterexample :
    combatState.enemies ≠ [] ∧
    handleGiveItem combatState "a" "b" 0 ≠ combatState ∧
    (handleGiveItem combatState "a" "b" 0).activeCharacters.map
      (fun c => c.items.map Item.name) = [[], ["Poção"]] := by decide

/-- C2 amended: while `activeEnemies` is non-empty, `takeItem` and
`dropItem` return early and leave the whole state unchanged (without
logging anything); `giveItem`, `buyItem` and `sellItem` carry no combat
check in the handlers. -/
theorem combat_lock_take_drop_noop (st : GameState) (charId : String) (item : Item)
    (itemIndex : Nat) (h : st.enemies ≠ []) :
    handleTakeItem st charId item itemIndex = st ∧
    handleDropItem st charId item itemIndex = st := by
  have hl : 0 < st.enemies.length := List.length_pos.mpr h
  constructor <;> simp [handleTakeItem, handleDropItem, hl]

theorem combat_lock_take_drop_noop_witness :
    handleTakeItem combatState "a" (mkItem "Corda") 0 = combatState ∧
    handleDropItem combatState "a" (mkItem "Poção") 0 = combatState :=
  ⟨(combat_lock_take_drop_noop combatState "a" (mkItem "Corda") 0 (by decide)).1,
   (combat_lock_take_drop_noop combatState "a" (mkItem "Poção") 0 (by decide)).2⟩

/-- C4 counterexample: with permadeath ON, a character at hp 5 hit by a
resourceChange of −20 ends at hp −15 — not floored at 1 as the
one-life-buffer policy would require. -/
theorem permadeath_buffer_counterexample :
    (applyTurnResponse true brunoState brunoResponse).activeCharacters.map
      (fun c => c.derived.hp) = [-15] ∧
    ¬((applyTurnResponse true brunoState brunoResponse).activeCharacters.map
      (fun c => c.derived.hp) = [1]) := by decide

/-- C4 amended: with permadeath ON a matched resourceChange passes
through raw — the resource simply becomes `old + value`, possibly 0 or
negative, with no one-life-buffer flooring (with permadeath OFF the
engine clamps at 0 instead). -/
theorem permadeath_resource_passthrough (c : Character) (cs : List Character)
    (logs : List MechanicLog) (rc : ResourceChange) (h : c.name = rc.characterName) :
    applyResourceChange true (c :: cs, logs) rc =
      ({ c with derived :=
          (c.derived.setRes rc.resource (c.derived.getRes rc.resource + rc.value)) } :: cs,
       logs ++ [resChangeLog rc]) := by
  simp [applyResourceChange, updateFirstBy, h]

theorem permadeath_resource_passthrough_witness :
    applyResourceChange true ([mkChar "b" "Bruno" 5 0 []], []) ⟨"Bruno", .hp, -20, "queda"⟩ =
      ({ mkChar "b" "Bruno" 5 0 [] with derived :=
          ((mkChar "b" "Bruno" 5 0 []).derived.setRes ResourceKind.hp
            ((mkChar "b" "Bruno" 5 0 []).derived.getRes ResourceKind.hp + (-20))) } :: [],
       [] ++ [resChangeLog ⟨"Bruno", .hp, -20, "queda"⟩]) :=
  permadeath_resource_passthrough (mkChar "b" "Bruno" 5 0 []) [] []
    ⟨"Bruno", .hp, -20, "queda"⟩ rfl

/-- C3 counterexample: a resourceChange naming "Goblin" — an enemy, not a
character — leaves the goblin's hp at 10: the engine never falls back to
searching the enemies (or allies) by name. -/
theorem resource_change_no_fallback_counterexample :
    goblinState.activeCharacters.map Character.name = ["Ana"] ∧
    goblinState.enemies.map (fun e => (e.name, e.currentHp)) = [("Goblin", 10)] ∧
    (applyTurnResponse false goblinState goblinResponse).enemies = goblinState.enemies ∧
    ¬((applyTurnResponse false goblinState goblinResponse).enemies.map Enemy.currentHp
        = [7]) := by decide

/-- C3 amended: a resourceChange is resolved against the characters only;
when no character name matches, the raw change is logged and no entity is
mutated — enemies and allies are never searched or modified by
resourceChanges (their lists change only by wholesale replacement). -/
theorem resource_changes_characters_only
    (permadeathEnabled : Bool) (st : GameState) (resp : TurnResponse)
    (chars : List Character) (logsA logsB : List MechanicLog)
    (rcA rcB : ResourceChange) (cB : Character) (csB : List Character)
    (hE : resp.activeEnemies = none) (hA : resp.activeAllies = none)
    (hmiss : ∀ c ∈ chars, c.name ≠ rcA.characterName)
    (hmatch : cB.name = rcB.characterName) :
    (applyTurnResponse permadeathEnabled st resp).enemies = st.enemies ∧
    (applyTurnResponse permadeathEnabled st resp).activeAllies = st.activeAllies ∧
    applyResourceChange permadeathEnabled (chars, logsA) rcA =
      (chars, logsA ++ [resChangeLog rcA]) ∧
    applyResourceChange permadeathEnabled (cB :: csB, logsB) rcB =
      ({ cB with derived :=
          (cB.derived.setRes rcB.resource
            (if permadeathEnabled then cB.derived.getRes rcB.resource + rcB.value
             else max 0 (cB.derived.getRes rcB.resource + rcB.value))) } :: csB,
       logsB ++ [resChangeLog rcB]) := by
  refine ⟨?_, ?_, ?_, ?_⟩
  · simp [applyTurnResponse, hE]
  · simp [applyTurnResponse, hA]
  · have hnone := updateFirstBy_not_found (fun c => c.name == rcA.characterName)
      (fun c =>
        let newValue := c.derived.getRes rcA.resource + rcA.value
        let newValue := if permadeathEnabled then newValue else max 0 newValue
        { c with derived := c.derived.setRes rcA.resource newValue }) chars
      (fun x hx => by simpa using hmiss x hx)
    simp [applyResourceChange, hnone]
  · simp [applyResourceChange, updateFirstBy, hmatch]

theorem resource_changes_characters_only_witness :
    (applyTurnResponse false goblinState goblinResponse).enemies = goblinState.enemies ∧
    (applyTurnResponse false goblinState goblinResponse).activeAllies =
      goblinState.activeAllies ∧
    applyResourceChange false ([mkChar "a" "Ana" 10 0 []], [])
      ⟨"Goblin", .hp, -3, "golpe"⟩ =
      ([mkChar "a" "Ana" 10 0 []], [] ++ [resChangeLog ⟨"Goblin", .hp, -3, "golpe"⟩]) ∧
    applyResourceChange false ([mkChar "c" "Caio" 9 0 []], []) ⟨"Caio", .hp, -4, "flecha"⟩ =
      ({ mkChar "c" "Caio" 9 0 [] with derived :=
          ((mkChar "c" "Caio" 9 0 []).derived.setRes ResourceKind.hp
            (if false then (mkChar "c" "Caio" 9 0 []).derived.getRes ResourceKind.hp + (-4)
             else max 0 ((mkChar "c" "Caio" 9 0 []).derived.getRes ResourceKind.hp + (-4)))) }
        :: [],
       [] ++ [resChangeLog ⟨"Caio", .hp, -4, "flecha"⟩]) := by
  have h := resource_changes_characters_only false goblinState goblinResponse
    [mkChar "a" "Ana" 10 0 []] [] [] ⟨"Goblin", .hp, -3, "golpe"⟩
    ⟨"Caio", .hp, -4, "flecha"⟩ (mkChar "c" "Caio" 9 0 []) []
    rfl rfl (by decide) rfl
  exact h

/-- C6 amended: `takeItem` and `giveItem` refuse (by exact case-sensitive
name match) to add an item whose name the receiving character already
holds, so the no-duplicate invariant is preserved by every sequence of
take/give operations on a roster with distinct character ids; `buyItem`
performs no duplicate check and can break the invariant. -/
theorem take_give_preserve_nodup (st : GameState) (ops : List InvOp)
    (hids : (st.activeCharacters.map Character.id).Nodup)
    (h0 : ∀ c ∈ st.activeCharacters, (c.items.map Item.name).Nodup)
    (hops : ∀ op ∈ ops, TakeOrGive op) :
    ∀ c ∈ (ops.foldl applyInvOp st).activeCharacters, (c.items.map Item.name).Nodup := by
  induction ops generalizing st with
  | nil => simpa using h0
  | cons op ops ih =>
      have hop := hops op (List.mem_cons_self op ops)
      have hids' : ((applyInvOp st op).activeCharacters.map Character.id).Nodup := by
        rw [applyInvOp_ids]; exact hids
      have h0' : ∀ c ∈ (applyInvOp st op).activeCharacters, (c.items.map Item.name).Nodup := by
        cases op with
        | take charId item i => exact take_preserves_nodup st charId item i h0
        | give src tgt i => exact give_preserves_nodup st src tgt i hids h0
        | drop _ _ _ => exact hop.elim
        | equip _ _ _ => exact hop.elim
        | unequip _ _ => exact hop.elim
        | buy _ _ _ => exact hop.elim
        | sell _ _ _ => exact hop.elim
      exact ih (applyInvOp st op) hids' h0'
        (fun o ho => hops o (List.mem_cons_of_mem op ho))

theorem take_give_preserve_nodup_witness :
    ((mkChar "a" "Ana" 10 0 [mkItem "Poção", mkItem "Faca"]).items.map Item.name).Nodup :=
  take_give_preserve_nodup dupTakeState
    [InvOp.take "a" (mkItem "Faca") 0, InvOp.give "a" "a" 0]
    (by decide) (by decide)
    (by intro op hop
        simp only [List.mem_cons, List.mem_singleton] at hop
        rcases hop with rfl | rfl | h
        · trivial
        · trivial
        · cases h)
    (mkChar "a" "Ana" 10 0 [mkItem "Poção", mkItem "Faca"])
    (by decide)

/-- C6 counterexample: Ana already owns an "Espada", yet buying another
"Espada" from a merchant succeeds, leaving two same-named items in her
bag — `handleBuyItem` performs no duplicate-name check. -/
theorem buy_duplicate_counterexample :
    (∀ c ∈ dupBuyState.activeCharacters, (c.items.map Item.name).Nodup) ∧
    (handleBuyItem dupBuyState "a" (mkPricedItem "Espada" 10) "m1").activeCharacters.map
      (fun c => c.items.map Item.name) = [["Espada", "Espada"]] ∧
    ¬(∀ c ∈ (handleBuyItem dupBuyState "a" (mkPricedItem "Espada" 10) "m1").activeCharacters,
        (c.items.map Item.name).Nodup) := by decide

/-- C7 amended: after any sequence of take/give/buy operations, equips of
items with non-negative capacityBonus, and unequips of the chest or hands
slots, every character keeps `len(items) ≤ 7 + backBonus` (on a roster
with distinct ids that starts inside the bound); and `unequipItem` is
rejected — bag and equipment unchanged — when the bag is at the current
capacity.  Unequipping the back slot is excluded: it is checked against
the pre-removal limit and can leave `len(items)` above 7. -/
theorem capacity_invariant (st : GameState) (ops : List InvOp) (st2 : GameState)
    (charId2 : String) (slot2 : EquipmentSlot)
    (hids : (st.activeCharacters.map Character.id).Nodup)
    (h0 : ∀ c ∈ st.activeCharacters, CapOK c)
    (hops : ∀ op ∈ ops, CapSafeOp op)
    (hfull : ∀ c ∈ st2.activeCharacters, c.id = charId2 →
      (c.items.length : Int) ≥ getInventoryLimit c) :
    (∀ c ∈ (ops.foldl applyInvOp st).activeCharacters,
      (c.items.length : Int) ≤ getInventoryLimit c) ∧
    (handleUnequipItem st2 charId2 slot2).activeCharacters = st2.activeCharacters := by
  constructor
  · intro c hc
    rw [getInventoryLimit_eq]
    exact (capok_fold st ops hids h0 hops c hc).1
  · simp only [handleUnequipItem, GameState.addLog, List.map_map]
    refine map_id_of _ _ (fun x hx => ?_)
    show (unequipCharUpdate charId2 slot2 x).1 = x
    unfold unequipCharUpdate
    by_cases h1 : (x.id == charId2) = true
    · rw [if_pos h1]
      cases hocc : x.equipment.get slot2 with
      | none => rfl
      | some item =>
          have hfx : (x.items.length : Int) ≥ getInventoryLimit x :=
            hfull x hx (by simpa using h1)
          simp [hfx]
    · rw [if_neg h1]

theorem capacity_invariant_witness :
    (∀ c ∈ ([InvOp.unequip "r" EquipmentSlot.chest,
        InvOp.take "r" (mkItem "Pá") 0].foldl applyInvOp ruiState).activeCharacters,
      (c.items.length : Int) ≤ getInventoryLimit c) ∧
    (handleUnequipItem fullState "f" EquipmentSlot.hands).activeCharacters =
      fullState.activeCharacters :=
  capacity_invariant ruiState
    [InvOp.unequip "r" EquipmentSlot.chest, InvOp.take "r" (mkItem "Pá") 0]
    fullState "f" EquipmentSlot.hands
    (by decide)
    (by intro c hc
        simp only [ruiState, mkState, List.mem_singleton] at hc
        subst hc
        exact ⟨by decide, by decide⟩)
    (by intro op hop
        simp only [List.mem_cons, List.mem_singleton] at hop
        rcases hop with rfl | rfl | h
        · exact (by decide : EquipmentSlot.chest ≠ EquipmentSlot.back)
        · trivial
        · cases h)
    (by decide)

/-- C7 counterexample: Rui has a +3 backpack equipped and 8 bag items, so
the unequip check (8 < 10) passes; after unequipping the back slot he
holds 9 items against a limit of 7 — the capacity invariant is broken. -/
theorem unequip_back_capacity_counterexample :
    (∀ c ∈ ruiState.activeCharacters, (c.items.length : Int) ≤ getInventoryLimit c) ∧
    (handleUnequipItem ruiState "r" EquipmentSlot.back).activeCharacters.map
      (fun c => ((c.items.length : Int), getInventoryLimit c)) = [(9, 7)] ∧
    ¬(∀ c ∈ (handleUnequipItem ruiState "r" EquipmentSlot.back).activeCharacters,
        (c.items.length : Int) ≤ getInventoryLimit c) := by decide

/-- C10: wealth never becomes negative — buying deducts the price only
when the buyer's wealth covers it (otherwise the roster is unchanged),
selling only credits (for catalogue items of non-negative price), and an
Oracle REMOVE update with a cost clamps the deduction at a floor of 0. -/
theorem wealth_never_negative
    (stA stB stD : GameState) (charIdA charIdB charIdD : String)
    (itemA itemB itemD : Item) (npcIdA npcIdD : String) (idxB : Nat)
    (acc : List Character × List Item × List MechanicLog) (u : InventoryUpdate) (pD : Int)
    (hA : ∀ c ∈ stA.activeCharacters, 0 ≤ c.wealth)
    (hB : ∀ c ∈ stB.activeCharacters, 0 ≤ c.wealth)
    (hBp : match itemB.price with | some p => 0 ≤ p | none => True)
    (hC : ∀ c ∈ acc.1, 0 ≤ c.wealth)
    (hDp : itemD.price = some pD)
    (hD : ∀ c ∈ stD.activeCharacters, c.id = charIdD → c.wealth < pD) :
    (∀ c ∈ (handleBuyItem stA charIdA itemA npcIdA).activeCharacters, 0 ≤ c.wealth) ∧
    (∀ c ∈ (handleSellItem stB charIdB itemB idxB).activeCharacters, 0 ≤ c.wealth) ∧
    (∀ c ∈ (applyInventoryUpdate acc u).1, 0 ≤ c.wealth) ∧
    (handleBuyItem stD charIdD itemD npcIdD).activeCharacters = stD.activeCharacters := by
  refine ⟨?_, ?_, ?_, ?_⟩
  · cases hp : itemA.price with
    | none => simpa [handleBuyItem, hp] using hA
    | some p =>
        by_cases h0 : p = 0
        · simpa [handleBuyItem, hp, h0] using hA
        · intro c hc
          simp only [handleBuyItem, hp, h0, if_neg, List.map_map] at hc
          obtain ⟨x, hx, hfx⟩ := List.mem_map.mp hc
          subst hfx
          exact buyCharUpdate_wealth charIdA itemA p x (hA x hx)
  · cases ht : stB.tradeTarget with
    | none => simpa [handleSellItem, ht] using hB
    | some tt =>
        intro c hc
        simp only [handleSellItem, ht, GameState.addLog] at hc
        obtain ⟨x, hx, hfx⟩ := List.mem_map.mp hc
        subst hfx
        have hnn := sellPriceOf_nonneg itemB hBp
        show 0 ≤ (sellCharUpdate charIdB (sellPriceOf itemB) idxB x).wealth
        unfold sellCharUpdate
        split_ifs
        · have h1 := hB x hx
          simp
          omega
        · exact hB x hx
  · intro c hc
    cases hact : u.action with
    | ADD =>
        simp only [applyInventoryUpdate, hact] at hc
        split_ifs at hc <;> exact hC c hc
    | REMOVE =>
        simp only [applyInventoryUpdate, hact] at hc
        rcases hr : (updateFirstBy (fun c => c.name == u.characterName)
            (removeCharUpdate u) acc.1).2 with _ | c'
        · rw [hr] at hc
          exact hC c hc
        · rw [hr] at hc
          simp only at hc
          rcases updateFirstBy_mem _ _ hc with hmem | ⟨x, hx, rfl⟩
          · exact hC c hmem
          · exact removeCharUpdate_wealth u x (hC x hx)
  · by_cases h0 : pD = 0
    · simp [handleBuyItem, hDp, h0]
    · simp only [handleBuyItem, hDp, h0, if_neg, List.map_map]
      refine map_id_of _ _ (fun x hx => ?_)
      show (buyCharUpdate charIdD itemD pD x).1 = x
      unfold buyCharUpdate
      have : (x.id == charIdD) = true → x.wealth < pD := by
        intro hb
        exact hD x hx (by simpa using hb)
      split_ifs with h1 h2
      · rfl
      · rfl
      · exact absurd (this h1) h2
      · rfl

theorem wealth_never_negative_witness :
    (∀ c ∈ (handleBuyItem dupBuyState "a" (mkPricedItem "Espada" 10) "m1").activeCharacters,
        0 ≤ c.wealth) ∧
    (∀ c ∈ (handleSellItem dupBuyState "a" (mkPricedItem "Espada" 10) 0).activeCharacters,
        0 ≤ c.wealth) ∧
    (∀ c ∈ (applyInventoryUpdate ([mkChar "a" "Ana" 10 3 []], [], [])
        ⟨"Ana", mkItem "Corda", .REMOVE, some 8⟩).1, 0 ≤ c.wealth) ∧
    (handleBuyItem goblinState "a" (mkPricedItem "Espada" 999) "m1").activeCharacters =
      goblinState.activeCharacters :=
  wealth_never_negative dupBuyState dupBuyState goblinState "a" "a" "a"
    (mkPricedItem "Espada" 10) (mkPricedItem "Espada" 10) (mkPricedItem "Espada" 999)
    "m1" "m1" 0 ([mkChar "a" "Ana" 10 3 []], [], [])
    ⟨"Ana", mkItem "Corda", .REMOVE, some 8⟩ 999
    (by decide) (by decide) ((by norm_num : (0 : Int) ≤ 10)) (by decide) rfl (by decide)

/-- C5: at the failing input — Ana already holds a "Poção" and takes the
"Poção" lying on the ground, out of combat — the bag stays unchanged and
the duplicate-block log is emitted, yet the ground pool loses the item
anyway (and a "picked up" log is appended), destroying it instead of
leaving it on the ground as the spec requires. -/
theorem blocked_take_destroys_ground_item :
    dupTakeState.enemies = [] ∧
    dupTakeState.nearbyItems = [mkItem "Poção"] ∧
    (handleTakeItem dupTakeState "a" (mkItem "Poção") 0).activeCharacters.map
      (fun c => c.items.map Item.name) = [["Poção"]] ∧
    (handleTakeItem dupTakeState "a" (mkItem "Poção") 0).nearbyItems = [] ∧
    (handleTakeItem dupTakeState "a" (mkItem "Poção") 0).mechanicLogs.map
      MechanicLog.content =
      ["Poção já está no inventário.", "Pegou Poção do chão."] := by decide

/-- C8: at the failing input — ground pool ["Corda", "Tocha"] in the
Forest, a turn returning `mapData.locationName = "Cave"` together with a
fresh nearby item "Gema" — the engine first merges "Gema" into the pool
and then clears the whole pool when adopting the new map, so the item
returned in that same response is lost rather than remaining in the
pool. -/
theorem location_change_wipes_new_items :
    (applyTurnResponse false forestState caveResponse).nearbyItems = [] ∧
    ¬((applyTurnResponse false forestState caveResponse).nearbyItems = [mkItem "Gema"]) ∧
    (applyTurnResponse false forestState caveResponse).mapData = some caveMap := by decide

end RPGVerse
